import Mathlib

/-!
Verification of the 2D kinematics teaching simulator.

A shallow embedding of the simulation-and-viewport engine of
`src/components/AITutor.tsx` (the `SimulationCanvas` component) together with
the data model of `src/unnamed/part_001` (`types.ts`).

Numbers are modelled as exact rationals (`ℚ`): the source performs only
field arithmetic, `min`/`max`, comparisons, and — in the boat mode — the
trigonometric functions `Math.cos(θ·π/180)` / `Math.sin(θ·π/180)`, which are
abstracted by a `Trig` record of two functions on degrees.  The single use of
`Math.sqrt` (the path-recording distance test `sqrt(dx²+dy²) > 0.1`) is
embedded in its squared form `dx²+dy² > (0.1)²`, which is equivalent over the
reals since both sides of the original comparison are non-negative.
-/

/-- `Vector2` of `types.ts`: an ordered pair of numbers. -/
@[ext]
structure Vector2 where
  x : ℚ
  y : ℚ
deriving DecidableEq, Repr

/-- `AppMode` of `types.ts`. -/
inductive AppMode where
  | Kinematics
  | Vectors
  | Boat
deriving DecidableEq, Repr

/-- `SimulationConfig` of `types.ts` (numeric and boolean fields). -/
structure SimulationConfig where
  scale : ℚ
  v0 : Vector2
  a : Vector2
  p0 : Vector2
  boatHeading : ℚ
  riverWidth : ℚ
  riverVelocity : ℚ
  boatSpeed : ℚ
  showVelocity : Bool
  showComponents : Bool
  showAcceleration : Bool
  showTrace : Bool
  showShadowBalls : Bool
deriving DecidableEq, Repr

/-- `SimulationState` of `types.ts`. -/
structure SimulationState where
  t : ℚ
  position : Vector2
  velocity : Vector2
  initialVelocity : Vector2
  acceleration : Vector2
  path : List Vector2
deriving DecidableEq, Repr

/-- The trigonometry the boat mode uses.  `cosDeg θ` stands for the source
expression `Math.cos(θ * Math.PI / 180)` and `sinDeg θ` for
`Math.sin(θ * Math.PI / 180)`; theorems that depend on particular values
take the true values of real cosine/sine at the relevant angle as
hypotheses. -/
structure Trig where
  cosDeg : ℚ → ℚ
  sinDeg : ℚ → ℚ

/-- `getW2S` (AITutor.tsx lines 210-213): world point to screen point, given
pan `p` and scale `s`. -/
def getW2S (x y : ℚ) (p : Vector2) (s : ℚ) : Vector2 :=
  ⟨p.x + x * s, p.y - y * s⟩

/-- `getS2W` (AITutor.tsx lines 215-218): screen point to world point. -/
def getS2W (sx sy : ℚ) (p : Vector2) (s : ℚ) : Vector2 :=
  ⟨(sx - p.x) / s, (p.y - sy) / s⟩

/-- `resetSimulation` (AITutor.tsx lines 155-177), the new `stateRef`
value.  In boat mode the start position is `(0,0)` and the initial velocity
is the boat velocity (speed decomposed along the heading) plus the river
flow on the x component; otherwise the config's `p0`/`v0` are used. -/
def resetSimulation (trig : Trig) (mode : AppMode) (config : SimulationConfig) :
    SimulationState :=
  let startPos : Vector2 :=
    if mode = AppMode.Boat then ⟨0, 0⟩ else config.p0
  let initialV : Vector2 :=
    if mode = AppMode.Boat then
      ⟨config.boatSpeed * trig.cosDeg config.boatHeading + config.riverVelocity,
       config.boatSpeed * trig.sinDeg config.boatHeading⟩
    else config.v0
  { t := 0
    position := startPos
    velocity := initialV
    initialVelocity := initialV
    acceleration := config.a
    path := [startPos] }

/-- Squared Euclidean distance between two points. -/
def dist2 (p q : Vector2) : ℚ :=
  (p.x - q.x) * (p.x - q.x) + (p.y - q.y) * (p.y - q.y)

/-- The path-recording step of `animate` (AITutor.tsx lines 570-580): the
current position is appended when its distance from the last recorded point
exceeds 0.1 (`Math.sqrt(dx*dx+dy*dy) > 0.1`, embedded squared as
`dx²+dy² > 1/100`), or when the path is empty. -/
def recordPath (s : SimulationState) : SimulationState :=
  match s.path.getLast? with
  | some lastP =>
      if dist2 s.position lastP > 1 / 100 then
        { s with path := s.path ++ [s.position] }
      else s
  | none => { s with path := s.path ++ [s.position] }

/-- The physics part of one `animate` tick (AITutor.tsx lines 520-568):
mode-dependent update of `t`, `position` and `velocity` by the elapsed time
`dt`.  Boat mode: terminal clamp at the far bank, else explicit Euler with a
fractional final step; note the source increments `t` by the full `dt`
whenever the position at the start of the tick is short of the far bank
(lines 550-553 run before the position assignment).  Kinematics mode: the
closed-form projectile formulas at `t + dt`.  Vectors mode: no update. -/
def physicsStep (trig : Trig) (mode : AppMode) (config : SimulationConfig)
    (dt : ℚ) (s : SimulationState) : SimulationState :=
  match mode with
  | AppMode.Boat =>
      if s.position.y ≥ config.riverWidth then
        { s with position := ⟨s.position.x, config.riverWidth⟩
                 velocity := ⟨0, 0⟩ }
      else
        let vBoatX := config.boatSpeed * trig.cosDeg config.boatHeading
        let vBoatY := config.boatSpeed * trig.sinDeg config.boatHeading
        let vx := vBoatX + config.riverVelocity
        let vy := vBoatY
        let nextX := s.position.x + vx * dt
        let nextY := s.position.y + vy * dt
        if nextY ≥ config.riverWidth then
          let nextX' :=
            if vy > 0 then
              s.position.x +
                vx * min dt (max 0 ((config.riverWidth - s.position.y) / vy))
            else nextX
          { s with t := s.t + dt
                   position := ⟨nextX', config.riverWidth⟩
                   velocity := ⟨0, 0⟩ }
        else
          { s with t := s.t + dt
                   position := ⟨nextX, nextY⟩
                   velocity := ⟨vx, vy⟩ }
  | AppMode.Kinematics =>
      let newTime := s.t + dt
      let vx := config.v0.x + config.a.x * newTime
      let vy := config.v0.y + config.a.y * newTime
      let x := config.p0.x + config.v0.x * newTime +
        1 / 2 * config.a.x * newTime * newTime
      let y := config.p0.y + config.v0.y * newTime +
        1 / 2 * config.a.y * newTime * newTime
      { s with t := newTime
               velocity := ⟨vx, vy⟩
               position := ⟨x, y⟩ }
  | AppMode.Vectors => s

/-- One full `animate` tick (AITutor.tsx lines 514-580, without the wall
clock and publication): the mode-dependent physics update followed by the
path-recording step. -/
def animateTick (trig : Trig) (mode : AppMode) (config : SimulationConfig)
    (dt : ℚ) (s : SimulationState) : SimulationState :=
  recordPath (physicsStep trig mode config dt s)

/-- The `Δt` cap of the animation loop (AITutor.tsx line 518):
`dt = Math.min(delta, 0.1)`. -/
def capDt (delta : ℚ) : ℚ := min delta (1 / 10)

/-- `handleWheel` (AITutor.tsx lines 665-679): the new scale and pan
produced by a wheel event at screen point `(mouseX, mouseY)` with wheel
delta `deltaY`. -/
def handleWheel (deltaY mouseX mouseY : ℚ) (pan : Vector2) (scale : ℚ) :
    ℚ × Vector2 :=
  let zoomFactor : ℚ := if deltaY < 0 then 11 / 10 else 9 / 10
  let newScale := max 2 (min 200 (scale * zoomFactor))
  let worldUnderMouse := getS2W mouseX mouseY pan scale
  (newScale,
   ⟨mouseX - worldUnderMouse.x * newScale,
    mouseY + worldUnderMouse.y * newScale⟩)

/-- `Math.round(q * 2) / 2` (AITutor.tsx lines 639-640): rounding to the
nearest half unit.  JavaScript's `Math.round` rounds half-integers toward
`+∞`, which is `round` on `ℚ` (`⌊x + 1/2⌋`). -/
def roundHalf (q : ℚ) : ℚ := (round (q * 2) : ℤ) / 2

/-- The ball branch of `handleMouseMove` (AITutor.tsx lines 637-647), taken
while dragging with `dragTarget = 'ball'`: the updated config and state. -/
def handleMouseMoveBall (mouseX mouseY : ℚ) (pan : Vector2)
    (config : SimulationConfig) (s : SimulationState) :
    SimulationConfig × SimulationState :=
  let worldPos := getS2W mouseX mouseY pan config.scale
  let newPos : Vector2 := ⟨roundHalf worldPos.x, roundHalf worldPos.y⟩
  ({ config with p0 := newPos },
   { s with position := newPos, path := [newPos] })

/-- The predictive-trajectory decision of `drawBoatScene` (AITutor.tsx lines
295-298 and 309-332): `some` of the world-coordinate landing point the
dashed line is drawn to (the drawn segment runs from `getW2S` of the current
position to `getW2S` of this point), or `none` when no line is drawn.  The
source condition is `cfg.showTrace && vy > 0.1 && !isAtBank` with
`isAtBank = currentPos.y >= riverWidth - 0.01`. -/
def boatPredictiveLine (trig : Trig) (cfg : SimulationConfig)
    (s : SimulationState) : Option Vector2 :=
  let currentPos := s.position
  let isAtBank : Prop := currentPos.y ≥ cfg.riverWidth - 1 / 100
  let vy := cfg.boatSpeed * trig.sinDeg cfg.boatHeading
  if cfg.showTrace = true ∧ vy > 1 / 10 ∧ ¬isAtBank then
    let vx := cfg.boatSpeed * trig.cosDeg cfg.boatHeading + cfg.riverVelocity
    let timeToCross := (cfg.riverWidth - currentPos.y) / vy
    some ⟨currentPos.x + vx * timeToCross, cfg.riverWidth⟩
  else none

/-- One event of the host-publication model: an `animate` frame at wall
time `time` (AITutor.tsx lines 582-585), or a reset at wall time `time`
(`resetSimulation`, line 180, which calls `onUpdateState` unconditionally
and does not touch `lastUiUpdateRef`). -/
inductive LoopEvent where
  | tick (time : ℚ)
  | reset (time : ℚ)
deriving DecidableEq, Repr

/-- The publication decision of one event, given the throttle clock
`lastUi` (`lastUiUpdateRef`): the new clock and the wall times at which
`onUpdateState` is invoked.  A frame publishes only when
`time - lastUiUpdateRef > 100` and then sets `lastUiUpdateRef := time`; a
reset publishes unconditionally and leaves `lastUiUpdateRef` alone. -/
def pubStep (lastUi : ℚ) : LoopEvent → ℚ × List ℚ
  | LoopEvent.tick time =>
      if time - lastUi > 100 then (time, [time]) else (lastUi, [])
  | LoopEvent.reset time => (lastUi, [time])

/-- The publication times of a sequence of loop events. -/
def pubRun (lastUi : ℚ) : List LoopEvent → ℚ × List ℚ
  | [] => (lastUi, [])
  | e :: es =>
      let p := pubStep lastUi e
      let r := pubRun p.1 es
      (r.1, p.2 ++ r.2)

/-- A trig record whose values at 90 degrees are those of real
cosine/sine: `cos 90° = 0`, `sin 90° = 1` (used to instantiate concrete
boat-mode scenarios at heading 90). -/
def trigAt90 : Trig :=
  { cosDeg := fun _ => 0, sinDeg := fun _ => 1 }

/-- Whether a loop event is an `animate` frame. -/
def LoopEvent.isTick : LoopEvent → Bool
  | LoopEvent.tick _ => true
  | LoopEvent.reset _ => false

/-- Run a sequence of `animate` ticks from the freshly reset state. -/
def runTicks (trig : Trig) (mode : AppMode) (config : SimulationConfig)
    (dts : List ℚ) : SimulationState :=
  dts.foldl (fun s d => animateTick trig mode config d s)
    (resetSimulation trig mode config)

/-- The closed-form free-motion position
`p0 + v0·t + ½·a·t²` (spec §4.1) at elapsed time `τ`. -/
def kinPos (config : SimulationConfig) (τ : ℚ) : Vector2 :=
  ⟨config.p0.x + config.v0.x * τ + 1 / 2 * config.a.x * τ ^ 2,
   config.p0.y + config.v0.y * τ + 1 / 2 * config.a.y * τ ^ 2⟩

/-- The closed-form free-motion velocity `v0 + a·t` (spec §4.1) at elapsed
time `τ`. -/
def kinVel (config : SimulationConfig) (τ : ℚ) : Vector2 :=
  ⟨config.v0.x + config.a.x * τ, config.v0.y + config.a.y * τ⟩

/-- The path invariant of the spec: the recorded path is non-empty and
consecutive points are at least 0.1 world units apart (squared distance at
least `(0.1)² = 1/100`). -/
def pathInv (path : List Vector2) : Prop :=
  path ≠ [] ∧ path.Chain' (fun p q => dist2 p q ≥ 1 / 100)

/-- The boat-crossing configuration of Scenario B: `boatSpeed = 4`,
`heading = 90°`, `riverVelocity = 3`, `riverWidth = 50`. -/
def cfgB : SimulationConfig :=
  { scale := 10
    v0 := ⟨0, 0⟩
    a := ⟨0, 0⟩
    p0 := ⟨0, 0⟩
    boatHeading := 90
    riverWidth := 50
    riverVelocity := 3
    boatSpeed := 4
    showVelocity := true
    showComponents := false
    showAcceleration := false
    showTrace := true
    showShadowBalls := false }

/-- A boat-mode state resting on the far bank of `cfgB`. -/
def sBank : SimulationState :=
  { t := 5
    position := ⟨75 / 2, 50⟩
    velocity := ⟨0, 0⟩
    initialVelocity := ⟨3, 4⟩
    acceleration := ⟨0, 0⟩
    path := [⟨0, 0⟩, ⟨75 / 2, 50⟩] }

/-- The free-motion configuration of Scenario A: `v0 = (15, 0)`,
`a = (0, -9.8)`, `p0 = (0, 0)`. -/
def cfgA : SimulationConfig :=
  { scale := 10
    v0 := ⟨15, 0⟩
    a := ⟨0, -(49 / 5)⟩
    p0 := ⟨0, 0⟩
    boatHeading := 0
    riverWidth := 50
    riverVelocity := 3
    boatSpeed := 4
    showVelocity := true
    showComponents := true
    showAcceleration := true
    showTrace := true
    showShadowBalls := false }

/-- A boat-mode state at the origin with the resultant velocity of `cfgB`
and a freshly initialized path. -/
def sOrigin : SimulationState :=
  { t := 0
    position := ⟨0, 0⟩
    velocity := ⟨3, 4⟩
    initialVelocity := ⟨3, 4⟩
    acceleration := ⟨0, 0⟩
    path := [⟨0, 0⟩] }

/-- `cfgB` with a slow boat: `boatSpeed = 1/20`, so at heading 90° the
vertical velocity is `1/20 ∈ (0, 0.1]`. -/
def cfgSlow : SimulationConfig :=
  { cfgB with boatSpeed := 1 / 20 }

/-- A boat-mode state 0.005 world units short of the far bank of `cfgB`. -/
def sNearBank : SimulationState :=
  { sOrigin with position := ⟨0, 9999 / 200⟩ }

/-! ## Helper lemmas -/

/-- Squared distance is symmetric. -/
theorem dist2_comm (p q : Vector2) : dist2 p q = dist2 q p := by
  unfold dist2; ring

/-- The path-recording step does not change the elapsed time. -/
theorem recordPath_t (s : SimulationState) : (recordPath s).t = s.t := by
  unfold recordPath
  cases h : s.path.getLast? <;> simp only
  split <;> rfl

/-- The path-recording step does not change the position. -/
theorem recordPath_position (s : SimulationState) :
    (recordPath s).position = s.position := by
  unfold recordPath
  cases h : s.path.getLast? <;> simp only
  split <;> rfl

/-- The path-recording step does not change the velocity. -/
theorem recordPath_velocity (s : SimulationState) :
    (recordPath s).velocity = s.velocity := by
  unfold recordPath
  cases h : s.path.getLast? <;> simp only
  split <;> rfl

/-- The path-recording step either leaves the state alone or appends the
current position to the path. -/
theorem recordPath_cases (s : SimulationState) :
    recordPath s = s ∨
      recordPath s = { s with path := s.path ++ [s.position] } := by
  unfold recordPath
  cases h : s.path.getLast? with
  | none => exact Or.inr rfl
  | some lastP =>
      dsimp only
      by_cases hd : dist2 s.position lastP > 1 / 100
      · rw [if_pos hd]; exact Or.inr rfl
      · rw [if_neg hd]; exact Or.inl rfl

/-- Recording the path with the current position already at its end does
not change the state. -/
theorem recordPath_last_self (s : SimulationState)
    (h : s.path.getLast? = some s.position) : recordPath s = s := by
  unfold recordPath
  rw [h]
  dsimp only
  have h0 : dist2 s.position s.position = 0 := by unfold dist2; ring
  rw [h0]
  norm_num

/-- Recording the path twice at the same position is the same as recording
it once. -/
theorem recordPath_idem (s : SimulationState) :
    recordPath (recordPath s) = recordPath s := by
  rcases recordPath_cases s with he | he
  · rw [he]; exact he
  · rw [he]
    exact recordPath_last_self _ (by simp [List.getLast?_concat])

/-- The physics step never touches the recorded path. -/
theorem physicsStep_path (trig : Trig) (mode : AppMode)
    (config : SimulationConfig) (dt : ℚ) (s : SimulationState) :
    (physicsStep trig mode config dt s).path = s.path := by
  unfold physicsStep
  cases mode <;> simp only
  split
  · rfl
  · split <;> rfl

/-- The physics step never touches the captured initial velocity. -/
theorem physicsStep_initialVelocity (trig : Trig) (mode : AppMode)
    (config : SimulationConfig) (dt : ℚ) (s : SimulationState) :
    (physicsStep trig mode config dt s).initialVelocity = s.initialVelocity := by
  unfold physicsStep
  cases mode <;> simp only
  split
  · rfl
  · split <;> rfl

/-! ## C3: transform round trip -/

/-- Claim C3: for every world point and every viewport whose scale lies in
`[2, 200]`, `screenToWorld (worldToScreen (wx, wy)) = (wx, wy)` — exactly,
hence in particular within `1e-6` on each axis. -/
theorem transform_round_trip (wx wy : ℚ) (pan : Vector2) (scale : ℚ)
    (h2 : 2 ≤ scale) (h200 : scale ≤ 200) :
    getS2W (getW2S wx wy pan scale).x (getW2S wx wy pan scale).y pan scale =
      ⟨wx, wy⟩ := by
  have hs : scale ≠ 0 := by positivity
  unfold getW2S getS2W
  refine Vector2.ext ?_ ?_ <;> field_simp

/-- Witness for C3 at the world point `(3, -7)`, pan `(5, 9)`, scale 10. -/
theorem transform_round_trip_witness :
    (2 : ℚ) ≤ 10 ∧ (10 : ℚ) ≤ 200 ∧
      getS2W (getW2S 3 (-7) ⟨5, 9⟩ 10).x (getW2S 3 (-7) ⟨5, 9⟩ 10).y ⟨5, 9⟩ 10 =
        ⟨3, -7⟩ :=
  ⟨by norm_num, by norm_num,
    transform_round_trip 3 (-7) ⟨5, 9⟩ 10 (by norm_num) (by norm_num)⟩

/-! ## C4: zoom at a point -/

/-- Claim C4: a wheel event at screen anchor `(mouseX, mouseY)` multiplies
the scale by 1.1 (wheel up, `deltaY < 0`) or 0.9 and clamps it to
`[2, 200]` before recomputing the pan; the new pan is
`(anchor.x − worldX·scale', anchor.y + worldY·scale')` where
`(worldX, worldY)` is the world point under the anchor before the zoom; and
the world point under the anchor is preserved exactly (hence within
`1e-6`). -/
theorem zoom_at_point (deltaY mouseX mouseY : ℚ) (pan : Vector2) (scale : ℚ)
    (h2 : 2 ≤ scale) (h200 : scale ≤ 200) :
    (handleWheel deltaY mouseX mouseY pan scale).1 =
      max 2 (min 200 (scale * (if deltaY < 0 then 11 / 10 else 9 / 10))) ∧
    (handleWheel deltaY mouseX mouseY pan scale).2 =
      ⟨mouseX - (getS2W mouseX mouseY pan scale).x *
          (handleWheel deltaY mouseX mouseY pan scale).1,
       mouseY + (getS2W mouseX mouseY pan scale).y *
          (handleWheel deltaY mouseX mouseY pan scale).1⟩ ∧
    getS2W mouseX mouseY (handleWheel deltaY mouseX mouseY pan scale).2
        (handleWheel deltaY mouseX mouseY pan scale).1 =
      getS2W mouseX mouseY pan scale := by
  have he : handleWheel deltaY mouseX mouseY pan scale =
      (max 2 (min 200 (scale * (if deltaY < 0 then 11 / 10 else 9 / 10))),
       ⟨mouseX - (getS2W mouseX mouseY pan scale).x *
           max 2 (min 200 (scale * (if deltaY < 0 then 11 / 10 else 9 / 10))),
        mouseY + (getS2W mouseX mouseY pan scale).y *
           max 2 (min 200 (scale * (if deltaY < 0 then 11 / 10 else 9 / 10)))⟩) := rfl
  rw [he]
  dsimp only
  refine ⟨rfl, rfl, ?_⟩
  have hscale : scale ≠ 0 := by positivity
  have hpos : (0 : ℚ) < max 2 (min 200 (scale * (if deltaY < 0 then 11 / 10 else 9 / 10))) :=
    lt_of_lt_of_le (by norm_num) (le_max_left _ _)
  generalize max 2 (min 200 (scale * (if deltaY < 0 then 11 / 10 else 9 / 10))) = ns at hpos ⊢
  have hns : ns ≠ 0 := ne_of_gt hpos
  unfold getS2W
  ext <;> dsimp only <;> field_simp <;> ring

/-- Witness for C4: zoom in (`deltaY = -3`) at anchor `(300, 200)`, pan
`(50, 0)`, scale 10; the world point under the anchor, `(25, -20)`, is
unchanged. -/
theorem zoom_at_point_witness :
    (2 : ℚ) ≤ 10 ∧ (10 : ℚ) ≤ 200 ∧
    ((handleWheel (-3) 300 200 ⟨50, 0⟩ 10).1 =
      max 2 (min 200 (10 * (if (-3 : ℚ) < 0 then 11 / 10 else 9 / 10))) ∧
    (handleWheel (-3) 300 200 ⟨50, 0⟩ 10).2 =
      ⟨300 - (getS2W 300 200 ⟨50, 0⟩ 10).x * (handleWheel (-3) 300 200 ⟨50, 0⟩ 10).1,
       200 + (getS2W 300 200 ⟨50, 0⟩ 10).y * (handleWheel (-3) 300 200 ⟨50, 0⟩ 10).1⟩ ∧
    getS2W 300 200 (handleWheel (-3) 300 200 ⟨50, 0⟩ 10).2
        (handleWheel (-3) 300 200 ⟨50, 0⟩ 10).1 =
      getS2W 300 200 ⟨50, 0⟩ 10) :=
  ⟨by norm_num, by norm_num,
    zoom_at_point (-3) 300 200 ⟨50, 0⟩ 10 (by norm_num) (by norm_num)⟩

/-! ## C8: ball dragging -/

/-- Claim C8: a pointer move while dragging the ball converts the pointer's
screen position to world coordinates through the inverse transform, rounds
each axis to the nearest 0.5 world unit (each resulting axis is a half
integer within 1/4 of the unrounded value), stores the rounded point as the
new `p0` of the config and as the state's position, and resets the path to
the single-element sequence holding that point. -/
theorem ball_drag_update (mouseX mouseY : ℚ) (pan : Vector2)
    (config : SimulationConfig) (s : SimulationState) :
    (handleMouseMoveBall mouseX mouseY pan config s).1.p0 =
      ⟨roundHalf (getS2W mouseX mouseY pan config.scale).x,
       roundHalf (getS2W mouseX mouseY pan config.scale).y⟩ ∧
    (handleMouseMoveBall mouseX mouseY pan config s).2.position =
      (handleMouseMoveBall mouseX mouseY pan config s).1.p0 ∧
    (handleMouseMoveBall mouseX mouseY pan config s).2.path =
      [(handleMouseMoveBall mouseX mouseY pan config s).1.p0] ∧
    (∃ k : ℤ, (handleMouseMoveBall mouseX mouseY pan config s).1.p0.x = k / 2) ∧
    (∃ k : ℤ, (handleMouseMoveBall mouseX mouseY pan config s).1.p0.y = k / 2) ∧
    |(handleMouseMoveBall mouseX mouseY pan config s).1.p0.x -
       (getS2W mouseX mouseY pan config.scale).x| ≤ 1 / 4 ∧
    |(handleMouseMoveBall mouseX mouseY pan config s).1.p0.y -
       (getS2W mouseX mouseY pan config.scale).y| ≤ 1 / 4 := by
  refine ⟨rfl, rfl, rfl, ⟨round ((getS2W mouseX mouseY pan config.scale).x * 2), rfl⟩,
    ⟨round ((getS2W mouseX mouseY pan config.scale).y * 2), rfl⟩, ?_, ?_⟩
  · have h := abs_sub_round ((getS2W mouseX mouseY pan config.scale).x * 2)
    unfold handleMouseMoveBall roundHalf
    dsimp only
    rw [abs_le] at h ⊢
    constructor <;> linarith [h.1, h.2]
  · have h := abs_sub_round ((getS2W mouseX mouseY pan config.scale).y * 2)
    unfold handleMouseMoveBall roundHalf
    dsimp only
    rw [abs_le] at h ⊢
    constructor <;> linarith [h.1, h.2]

/-! ## C10: boat-mode (re)initialization -/

/-- Claim C10 (implicit): every (re)initialization in boat mode starts at
`(0,0)` with velocity and captured initial velocity both equal to
`(boatSpeed·cos(heading°) + riverVelocity, boatSpeed·sin(heading°))`,
`t = 0` and `path = [(0,0)]`; the config fields `p0` and `v0` are ignored
in boat mode. -/
theorem boat_reset_state (trig : Trig) (config : SimulationConfig)
    (p v : Vector2) :
    resetSimulation trig AppMode.Boat config =
      { t := 0
        position := ⟨0, 0⟩
        velocity := ⟨config.boatSpeed * trig.cosDeg config.boatHeading +
            config.riverVelocity,
          config.boatSpeed * trig.sinDeg config.boatHeading⟩
        initialVelocity := ⟨config.boatSpeed * trig.cosDeg config.boatHeading +
            config.riverVelocity,
          config.boatSpeed * trig.sinDeg config.boatHeading⟩
        acceleration := config.a
        path := [⟨0, 0⟩] } ∧
    resetSimulation trig AppMode.Boat { config with p0 := p, v0 := v } =
      resetSimulation trig AppMode.Boat config :=
  ⟨rfl, rfl⟩

/-! ## C2: the far bank is absorbing in boat mode -/

/-- In the terminal branch (already at or past the far bank) the physics
step clamps `y`, zeroes the velocity and leaves `t` alone; when `y` is
exactly `riverWidth` the position is unchanged. -/
theorem physicsStep_boat_at_bank (trig : Trig) (cfg : SimulationConfig)
    (d : ℚ) (u : SimulationState) (hu : u.position.y = cfg.riverWidth) :
    physicsStep trig AppMode.Boat cfg d u = { u with velocity := ⟨0, 0⟩ } := by
  unfold physicsStep
  dsimp only
  rw [if_pos (ge_of_eq hu)]
  rw [← hu]

/-- Claim C2: in boat mode, once `position.y = riverWidth`, a tick with any
`Δt ≥ 0` leaves `t` and `position` unchanged and the velocity is `(0,0)`;
the resulting state is absorbing — a further tick with any `Δt' ≥ 0`
returns it unchanged. -/
theorem boat_terminal_absorbing (trig : Trig) (cfg : SimulationConfig)
    (dt dt' : ℚ) (s : SimulationState) (hdt : 0 ≤ dt) (hdt' : 0 ≤ dt')
    (hy : s.position.y = cfg.riverWidth) :
    (animateTick trig AppMode.Boat cfg dt s).t = s.t ∧
    (animateTick trig AppMode.Boat cfg dt s).position = s.position ∧
    (animateTick trig AppMode.Boat cfg dt s).velocity = ⟨0, 0⟩ ∧
    animateTick trig AppMode.Boat cfg dt'
        (animateTick trig AppMode.Boat cfg dt s) =
      animateTick trig AppMode.Boat cfg dt s := by
  have hs' : animateTick trig AppMode.Boat cfg dt s =
      recordPath { s with velocity := ⟨0, 0⟩ } := by
    unfold animateTick
    rw [physicsStep_boat_at_bank trig cfg dt s hy]
  have habs : ∀ u : SimulationState, u.velocity = ⟨0, 0⟩ →
      u.position.y = cfg.riverWidth →
      animateTick trig AppMode.Boat cfg dt' u = recordPath u := by
    intro u huv huy
    unfold animateTick
    rw [physicsStep_boat_at_bank trig cfg dt' u huy, ← huv]
  refine ⟨?_, ?_, ?_, ?_⟩
  · rw [hs', recordPath_t]
  · rw [hs', recordPath_position]
  · rw [hs', recordPath_velocity]
  · rw [hs', habs _ (recordPath_velocity _) (by rw [recordPath_position]; exact hy)]
    exact recordPath_idem _

/-- Witness for C2 at the bank state `sBank` with `Δt = 1/10`,
`Δt' = 1/20`. -/
theorem boat_terminal_absorbing_witness :
    (0 : ℚ) ≤ 1 / 10 ∧ (0 : ℚ) ≤ 1 / 20 ∧
    sBank.position.y = cfgB.riverWidth ∧
    ((animateTick trigAt90 AppMode.Boat cfgB (1 / 10) sBank).t = sBank.t ∧
    (animateTick trigAt90 AppMode.Boat cfgB (1 / 10) sBank).position =
      sBank.position ∧
    (animateTick trigAt90 AppMode.Boat cfgB (1 / 10) sBank).velocity = ⟨0, 0⟩ ∧
    animateTick trigAt90 AppMode.Boat cfgB (1 / 20)
        (animateTick trigAt90 AppMode.Boat cfgB (1 / 10) sBank) =
      animateTick trigAt90 AppMode.Boat cfgB (1 / 10) sBank) :=
  ⟨by norm_num, by norm_num, by decide,
    boat_terminal_absorbing trigAt90 cfgB (1 / 10) (1 / 20) sBank
      (by norm_num) (by norm_num) (by decide)⟩

/-! ## C7: publication throttling -/

/-- Amended claim C7: consecutive `onUpdateState` invocations made by
`animate` frames are always more than 100 ms apart (the claim as stated —
never twice within 100 ms for all invocations — fails because
`resetSimulation` publishes unconditionally, see the counterexample). -/
theorem publish_throttle_gap (lastUi : ℚ) (evs : List LoopEvent)
    (hticks : ∀ e ∈ evs, e.isTick = true) :
    List.Chain' (fun a b => b - a > 100) (pubRun lastUi evs).2 := by
  have key : ∀ (l : List LoopEvent) (u : ℚ), (∀ e ∈ l, e.isTick = true) →
      List.Chain' (fun a b => b - a > 100) (u :: (pubRun u l).2) := by
    intro l
    induction l with
    | nil => intro u _; simp [pubRun]
    | cons e es ih =>
        intro u hall
        cases e with
        | tick τ =>
            unfold pubRun pubStep
            dsimp only
            by_cases hτ : τ - u > 100
            · rw [if_pos hτ]
              dsimp only
              rw [List.singleton_append, List.chain'_cons]
              exact ⟨hτ, ih τ (fun e he => hall e (List.mem_cons_of_mem _ he))⟩
            · rw [if_neg hτ]
              dsimp only
              rw [List.nil_append]
              exact ih u (fun e he => hall e (List.mem_cons_of_mem _ he))
        | reset τ =>
            have := hall _ (List.mem_cons_self _ _)
            simp [LoopEvent.isTick] at this
  exact (key evs lastUi hticks).tail

/-- Counterexample to C7 as stated: an `animate` frame at 101 ms publishes
(the throttle clock starts at 0), and a reset at 102 ms publishes again
unconditionally — two `onUpdateState` invocations 1 ms apart. -/
theorem publish_within_100ms :
    (pubRun 0 [LoopEvent.tick 101, LoopEvent.reset 102]).2 = [101, 102] ∧
    ¬ List.Chain' (fun a b => b - a > 100)
        (pubRun 0 [LoopEvent.tick 101, LoopEvent.reset 102]).2 := by
  have h : (pubRun 0 [LoopEvent.tick 101, LoopEvent.reset 102]).2 = [101, 102] := by
    simp only [pubRun, pubStep]
    rw [if_pos (by norm_num : (101 : ℚ) - 0 > 100)]
    simp
  refine ⟨h, ?_⟩
  rw [h]
  intro hch
  have h12 : (102 : ℚ) - 101 > 100 := (List.chain'_cons.mp hch).1
  norm_num at h12

/-- Witness for the amended C7 on a concrete all-frames trace. -/
theorem publish_throttle_gap_witness :
    (∀ e ∈ [LoopEvent.tick 101, LoopEvent.tick 150, LoopEvent.tick 250],
        e.isTick = true) ∧
    List.Chain' (fun a b => b - a > 100)
      (pubRun 0 [LoopEvent.tick 101, LoopEvent.tick 150,
        LoopEvent.tick 250]).2 :=
  ⟨by decide, publish_throttle_gap 0 _ (by decide)⟩

/-! ## C9: the boat-mode predictive line -/

/-- Amended claim C9: the predictive dashed line is drawn iff the trace is
enabled, the vertical resultant `vy = boatSpeed·sin(heading°)` exceeds 0.1
(not merely 0), and the boat is more than 0.01 world units short of the far
bank (`y < riverWidth − 0.01`, not `y < riverWidth`); when drawn, its
endpoint is the landing point `(x + vx·(riverWidth − y)/vy, riverWidth)`
computed from the current position. -/
theorem boat_predictive_line_spec (trig : Trig) (cfg : SimulationConfig)
    (s : SimulationState) :
    ((boatPredictiveLine trig cfg s).isSome = true ↔
      (cfg.showTrace = true ∧
        cfg.boatSpeed * trig.sinDeg cfg.boatHeading > 1 / 10 ∧
        s.position.y < cfg.riverWidth - 1 / 100)) ∧
    (cfg.showTrace = true →
      cfg.boatSpeed * trig.sinDeg cfg.boatHeading > 1 / 10 →
      s.position.y < cfg.riverWidth - 1 / 100 →
      boatPredictiveLine trig cfg s =
        some ⟨s.position.x +
            (cfg.boatSpeed * trig.cosDeg cfg.boatHeading + cfg.riverVelocity) *
              ((cfg.riverWidth - s.position.y) /
                (cfg.boatSpeed * trig.sinDeg cfg.boatHeading)),
          cfg.riverWidth⟩) := by
  unfold boatPredictiveLine
  dsimp only
  constructor
  · by_cases h : cfg.showTrace = true ∧
        cfg.boatSpeed * trig.sinDeg cfg.boatHeading > 1 / 10 ∧
        ¬ s.position.y ≥ cfg.riverWidth - 1 / 100
    · rw [if_pos h]
      simp only [Option.isSome_some, true_iff]
      exact ⟨h.1, h.2.1, lt_of_not_ge h.2.2⟩
    · rw [if_neg h]
      simp only [Option.isSome_none, Bool.false_eq_true, false_iff]
      intro hp
      exact h ⟨hp.1, hp.2.1, not_le.mpr hp.2.2⟩
  · intro h1 h2 h3
    rw [if_pos ⟨h1, h2, not_le.mpr h3⟩]

/-- Counterexample to C9 as stated: with the trace enabled, (1) a slow boat
(`vy = 1/20`, so `vy > 0` but `vy ≤ 0.1`) short of the bank gets no
predictive line, and (2) a fast boat 0.005 world units short of the bank
(`y < riverWidth` but `y ≥ riverWidth − 0.01`) gets no predictive line
either. -/
theorem boat_predictive_line_counterexample :
    (cfgSlow.showTrace = true ∧
      cfgSlow.boatSpeed * trigAt90.sinDeg cfgSlow.boatHeading > 0 ∧
      sOrigin.position.y < cfgSlow.riverWidth ∧
      boatPredictiveLine trigAt90 cfgSlow sOrigin = none) ∧
    (cfgB.showTrace = true ∧
      cfgB.boatSpeed * trigAt90.sinDeg cfgB.boatHeading > 0 ∧
      sNearBank.position.y < cfgB.riverWidth ∧
      boatPredictiveLine trigAt90 cfgB sNearBank = none) := by
  refine ⟨⟨rfl, by norm_num [cfgSlow, cfgB, trigAt90],
      by norm_num [cfgSlow, cfgB, sOrigin], ?_⟩,
    ⟨rfl, by norm_num [cfgB, trigAt90],
      by norm_num [cfgB, sNearBank, sOrigin], ?_⟩⟩
  · unfold boatPredictiveLine
    dsimp only
    rw [if_neg]
    intro h
    have := h.2.1
    norm_num [cfgSlow, cfgB, trigAt90] at this
  · unfold boatPredictiveLine
    dsimp only
    rw [if_neg]
    intro h
    apply h.2.2
    norm_num [cfgB, sNearBank, sOrigin]

/-- Witness for C9 on `cfgB` from the origin: the predictive line ends at
the landing point `(37.5, 50)`. -/
theorem boat_predictive_line_spec_witness :
    boatPredictiveLine trigAt90 cfgB sOrigin = some ⟨75 / 2, 50⟩ := by
  have h := (boat_predictive_line_spec trigAt90 cfgB sOrigin).2 rfl
    (by norm_num [cfgB, trigAt90]) (by norm_num [cfgB, sOrigin])
  rw [h]
  norm_num [cfgB, sOrigin, trigAt90]

/-! ## C1: free-motion closed form -/

/-- One free-motion tick advances the time by `dt` and recomputes position
and velocity from scratch by the closed-form formulas at the new time. -/
theorem kin_tick (trig : Trig) (config : SimulationConfig) (d : ℚ)
    (s : SimulationState) :
    (animateTick trig AppMode.Kinematics config d s).t = s.t + d ∧
    (animateTick trig AppMode.Kinematics config d s).position =
      kinPos config (s.t + d) ∧
    (animateTick trig AppMode.Kinematics config d s).velocity =
      kinVel config (s.t + d) := by
  unfold animateTick
  refine ⟨by rw [recordPath_t]; rfl, ?_, by rw [recordPath_velocity]; rfl⟩
  rw [recordPath_position]
  unfold physicsStep kinPos
  dsimp only
  ext <;> dsimp only <;> ring

/-- Folding free-motion ticks preserves the closed-form description. -/
theorem kin_fold (trig : Trig) (config : SimulationConfig) (dts : List ℚ) :
    ∀ s : SimulationState, s.position = kinPos config s.t →
      s.velocity = kinVel config s.t →
      ((dts.foldl (fun u d => animateTick trig AppMode.Kinematics config d u)
          s).t = s.t + dts.sum ∧
       (dts.foldl (fun u d => animateTick trig AppMode.Kinematics config d u)
          s).position = kinPos config (s.t + dts.sum) ∧
       (dts.foldl (fun u d => animateTick trig AppMode.Kinematics config d u)
          s).velocity = kinVel config (s.t + dts.sum)) := by
  induction dts with
  | nil =>
      intro s h1 h2
      rw [List.foldl_nil, List.sum_nil, add_zero]
      exact ⟨rfl, h1, h2⟩
  | cons d ds ih =>
      intro s h1 h2
      simp only [List.foldl_cons, List.sum_cons]
      have hstep := kin_tick trig config d s
      have hnext := ih (animateTick trig AppMode.Kinematics config d s)
        (by rw [hstep.2.1, hstep.1]) (by rw [hstep.2.2, hstep.1])
      refine ⟨?_, ?_, ?_⟩
      · rw [hnext.1, hstep.1]; ring
      · rw [hnext.2.1, hstep.1]; congr 1; ring
      · rw [hnext.2.2, hstep.1]; congr 1; ring

/-- Claim C1: in free-motion mode, for any finite sequence of ticks with
non-negative steps capped at 0.1 s, the state after the ticks satisfies the
closed-form projectile formulas exactly (hence within any tolerance) at
`t = Σ Δt`, independently of how the elapsed time is partitioned into
ticks. -/
theorem freeMotion_closed_form (trig : Trig) (config : SimulationConfig)
    (dts : List ℚ) (hsteps : ∀ d ∈ dts, 0 ≤ d ∧ d ≤ 1 / 10) :
    (runTicks trig AppMode.Kinematics config dts).t = dts.sum ∧
    (runTicks trig AppMode.Kinematics config dts).position =
      ⟨config.p0.x + config.v0.x * dts.sum + 1 / 2 * config.a.x * dts.sum ^ 2,
       config.p0.y + config.v0.y * dts.sum +
         1 / 2 * config.a.y * dts.sum ^ 2⟩ ∧
    (runTicks trig AppMode.Kinematics config dts).velocity =
      ⟨config.v0.x + config.a.x * dts.sum,
       config.v0.y + config.a.y * dts.sum⟩ := by
  have h0p : (resetSimulation trig AppMode.Kinematics config).position =
      kinPos config (resetSimulation trig AppMode.Kinematics config).t := by
    show config.p0 = kinPos config 0
    unfold kinPos
    ext <;> dsimp only <;> ring
  have h0v : (resetSimulation trig AppMode.Kinematics config).velocity =
      kinVel config (resetSimulation trig AppMode.Kinematics config).t := by
    show config.v0 = kinVel config 0
    unfold kinVel
    ext <;> dsimp only <;> ring
  have h := kin_fold trig config dts
    (resetSimulation trig AppMode.Kinematics config) h0p h0v
  have ht0 : (resetSimulation trig AppMode.Kinematics config).t = 0 := rfl
  rw [ht0, zero_add] at h
  exact ⟨h.1, h.2.1, h.2.2⟩

/-- Witness for C1, Scenario A: ten ticks of 0.1 s with `v0 = (15, 0)`,
`a = (0, -9.8)`, `p0 = (0, 0)` land at `t = 1` on position `(15, -4.9)`
with velocity `(15, -9.8)`. -/
theorem freeMotion_closed_form_witness :
    (∀ d ∈ List.replicate 10 ((1 : ℚ) / 10), 0 ≤ d ∧ d ≤ 1 / 10) ∧
    (runTicks trigAt90 AppMode.Kinematics cfgA
        (List.replicate 10 ((1 : ℚ) / 10))).t = 1 ∧
    (runTicks trigAt90 AppMode.Kinematics cfgA
        (List.replicate 10 ((1 : ℚ) / 10))).position = ⟨15, -(49 / 10)⟩ ∧
    (runTicks trigAt90 AppMode.Kinematics cfgA
        (List.replicate 10 ((1 : ℚ) / 10))).velocity = ⟨15, -(49 / 5)⟩ := by
  have hst : ∀ d ∈ List.replicate 10 ((1 : ℚ) / 10), 0 ≤ d ∧ d ≤ 1 / 10 := by
    intro d hd
    rw [List.eq_of_mem_replicate hd]
    norm_num
  have hsum : (List.replicate 10 ((1 : ℚ) / 10)).sum = 1 := by
    rw [List.sum_replicate]
    norm_num
  have h := freeMotion_closed_form trigAt90 cfgA
    (List.replicate 10 ((1 : ℚ) / 10)) hst
  refine ⟨hst, by rw [h.1, hsum], ?_, ?_⟩
  · rw [h.2.1, hsum]
    norm_num [cfgA]
  · rw [h.2.2, hsum]
    norm_num [cfgA]

/-! ## C6: the path invariant -/

/-- The path-recording step preserves the path invariant: an append only
happens at distance strictly above 0.1 from the recorded last point. -/
theorem recordPath_pathInv (s : SimulationState) (h : pathInv s.path) :
    pathInv (recordPath s).path := by
  obtain ⟨hne, hch⟩ := h
  unfold recordPath
  cases hl : s.path.getLast? with
  | none => exact absurd (List.getLast?_eq_none_iff.mp hl) hne
  | some lastP =>
      dsimp only
      by_cases hd : dist2 s.position lastP > 1 / 100
      · rw [if_pos hd]
        dsimp only
        refine ⟨by simp, List.Chain'.append hch (List.chain'_singleton _) ?_⟩
        intro x hx y hy
        rw [hl] at hx
        simp only [Option.mem_def, Option.some.injEq] at hx
        simp only [List.head?_cons, Option.mem_def, Option.some.injEq] at hy
        rw [← hx, ← hy, dist2_comm]
        exact le_of_lt hd
      · rw [if_neg hd]
        exact ⟨hne, hch⟩

/-- The path-recording step either leaves the path alone or appends exactly
the current position, and it appends only when the current position is more
than 0.1 world units (squared distance over 1/100) from the last recorded
point. -/
theorem recordPath_append_only (s : SimulationState) :
    (recordPath s).path = s.path ∨
    ((recordPath s).path = s.path ++ [s.position] ∧
      ∀ lastP, s.path.getLast? = some lastP →
        dist2 s.position lastP > 1 / 100) := by
  unfold recordPath
  cases hl : s.path.getLast? with
  | none =>
      right
      exact ⟨rfl, fun lastP hq => Option.noConfusion hq⟩
  | some lastP =>
      dsimp only
      by_cases hd : dist2 s.position lastP > 1 / 100
      · rw [if_pos hd]
        right
        refine ⟨rfl, fun q hq => ?_⟩
        injection hq with hq
        rw [← hq]
        exact hd
      · rw [if_neg hd]
        left
        rfl

/-- Claim C6: the path is non-empty after every (re)initialization; a tick
(in any mode), a reset and a ball drag each preserve non-emptiness and the
spacing bound that consecutive recorded points are at least 0.1 world units
apart; a tick appends at most the current position, and only when it is
more than 0.1 world units from the last recorded point. -/
theorem path_invariant (trig : Trig) (mode : AppMode)
    (cfg : SimulationConfig) (dt : ℚ) (s : SimulationState)
    (mouseX mouseY : ℚ) (pan : Vector2) (hs : pathInv s.path) :
    pathInv (resetSimulation trig mode cfg).path ∧
    pathInv (animateTick trig mode cfg dt s).path ∧
    pathInv (handleMouseMoveBall mouseX mouseY pan cfg s).2.path ∧
    ((animateTick trig mode cfg dt s).path = s.path ∨
      ((animateTick trig mode cfg dt s).path =
          s.path ++ [(animateTick trig mode cfg dt s).position] ∧
        ∀ lastP, s.path.getLast? = some lastP →
          dist2 (animateTick trig mode cfg dt s).position lastP > 1 / 100)) := by
  have hz : (physicsStep trig mode cfg dt s).path = s.path :=
    physicsStep_path trig mode cfg dt s
  refine ⟨?_, ?_, ?_, ?_⟩
  · exact ⟨List.cons_ne_nil _ _, List.chain'_singleton _⟩
  · unfold animateTick
    exact recordPath_pathInv _ (by rw [hz]; exact hs)
  · exact ⟨List.cons_ne_nil _ _, List.chain'_singleton _⟩
  · unfold animateTick
    rcases recordPath_append_only (physicsStep trig mode cfg dt s) with h | ⟨h, hcond⟩
    · left
      rw [h, hz]
    · right
      constructor
      · rw [h, hz, recordPath_position]
      · intro lastP hl
        rw [recordPath_position]
        exact hcond lastP (by rw [hz]; exact hl)

/-- Witness for C6: one free-motion tick from a freshly initialized state
preserves the path invariant. -/
theorem path_invariant_witness :
    pathInv sOrigin.path ∧
    pathInv (animateTick trigAt90 AppMode.Kinematics cfgA (1 / 10)
      sOrigin).path := by
  have hinv : pathInv sOrigin.path :=
    ⟨List.cons_ne_nil _ _, List.chain'_singleton _⟩
  exact ⟨hinv, (path_invariant trigAt90 AppMode.Kinematics cfgA (1 / 10)
    sOrigin 0 0 ⟨0, 0⟩ hinv).2.1⟩

/-! ## C5: the boat crossing -/

/-- A boat tick that stays short of the far bank (at resultant velocity
`(3, 4)` and river width 50): plain Euler step on position, `t` advances by
the full `dt`. -/
theorem boat_tick_normal (trig : Trig) (cfg : SimulationConfig) (d : ℚ)
    (s : SimulationState)
    (hvx : cfg.boatSpeed * trig.cosDeg cfg.boatHeading + cfg.riverVelocity = 3)
    (hvy : cfg.boatSpeed * trig.sinDeg cfg.boatHeading = 4)
    (hw : cfg.riverWidth = 50)
    (h1 : s.position.y < 50) (h2 : s.position.y + 4 * d < 50) :
    (animateTick trig AppMode.Boat cfg d s).t = s.t + d ∧
    (animateTick trig AppMode.Boat cfg d s).position.x =
      s.position.x + 3 * d ∧
    (animateTick trig AppMode.Boat cfg d s).position.y =
      s.position.y + 4 * d := by
  have hps : physicsStep trig AppMode.Boat cfg d s =
      { s with t := s.t + d
               position := ⟨s.position.x + 3 * d, s.position.y + 4 * d⟩
               velocity := ⟨3, 4⟩ } := by
    unfold physicsStep
    dsimp only
    rw [hvx, hvy, hw]
    rw [if_neg (by exact not_le.mpr h1 : ¬ s.position.y ≥ 50)]
    rw [if_neg (by exact not_le.mpr h2 : ¬ s.position.y + 4 * d ≥ 50)]
  unfold animateTick
  rw [recordPath_t, recordPath_position, hps]
  exact ⟨rfl, rfl, rfl⟩

/-- The crossing boat tick: the candidate step would overshoot the far bank,
so the position is clamped to the bank, `x` advances only for the fraction
of the step needed to reach it, and `t` still advances by the full `dt`. -/
theorem boat_tick_cross (trig : Trig) (cfg : SimulationConfig) (d : ℚ)
    (s : SimulationState)
    (hvx : cfg.boatSpeed * trig.cosDeg cfg.boatHeading + cfg.riverVelocity = 3)
    (hvy : cfg.boatSpeed * trig.sinDeg cfg.boatHeading = 4)
    (hw : cfg.riverWidth = 50)
    (h1 : s.position.y < 50) (h2 : s.position.y + 4 * d ≥ 50) :
    (animateTick trig AppMode.Boat cfg d s).t = s.t + d ∧
    (animateTick trig AppMode.Boat cfg d s).position.x =
      s.position.x + 3 * ((50 - s.position.y) / 4) ∧
    (animateTick trig AppMode.Boat cfg d s).position.y = 50 := by
  have hfrac0 : (0 : ℚ) ≤ (50 - s.position.y) / 4 := by
    apply div_nonneg _ (by norm_num)
    linarith
  have hfracd : (50 - s.position.y) / 4 ≤ d := by
    rw [div_le_iff₀ (by norm_num : (0 : ℚ) < 4)]
    linarith
  have hps : physicsStep trig AppMode.Boat cfg d s =
      { s with t := s.t + d
               position := ⟨s.position.x + 3 * ((50 - s.position.y) / 4), 50⟩
               velocity := ⟨0, 0⟩ } := by
    unfold physicsStep
    dsimp only
    rw [hvx, hvy, hw]
    rw [if_neg (by exact not_le.mpr h1 : ¬ s.position.y ≥ 50)]
    rw [if_pos (by exact h2 : s.position.y + 4 * d ≥ 50)]
    rw [if_pos (by norm_num : (4 : ℚ) > 0)]
    rw [max_eq_right hfrac0, min_eq_right hfracd]
  unfold animateTick
  rw [recordPath_t, recordPath_position, hps]
  exact ⟨rfl, rfl, rfl⟩

/-- The crossing invariant of Scenario B: below the bank and on the line
`x = (3/4)·y` (the straight resultant trajectory); each tick preserves it,
whatever the step size. -/
theorem boat_step_inv (trig : Trig) (cfg : SimulationConfig) (d : ℚ)
    (s : SimulationState)
    (hvx : cfg.boatSpeed * trig.cosDeg cfg.boatHeading + cfg.riverVelocity = 3)
    (hvy : cfg.boatSpeed * trig.sinDeg cfg.boatHeading = 4)
    (hw : cfg.riverWidth = 50)
    (h : s.position.y ≤ 50 ∧ s.position.x = 3 * s.position.y / 4) :
    (animateTick trig AppMode.Boat cfg d s).position.y ≤ 50 ∧
    (animateTick trig AppMode.Boat cfg d s).position.x =
      3 * (animateTick trig AppMode.Boat cfg d s).position.y / 4 := by
  obtain ⟨hy, hx⟩ := h
  by_cases h1 : s.position.y < 50
  · by_cases h2 : s.position.y + 4 * d ≥ 50
    · obtain ⟨_, hx', hy'⟩ := boat_tick_cross trig cfg d s hvx hvy hw h1 h2
      rw [hx', hy']
      constructor
      · norm_num
      · rw [hx]
        ring
    · obtain ⟨_, hx', hy'⟩ := boat_tick_normal trig cfg d s hvx hvy hw h1
        (lt_of_not_ge h2)
      rw [hx', hy']
      constructor
      · linarith [lt_of_not_ge h2]
      · rw [hx]
        ring
  · have hy50 : s.position.y = 50 := le_antisymm hy (le_of_not_lt h1)
    have hps := physicsStep_boat_at_bank trig cfg d s (by rw [hw]; exact hy50)
    unfold animateTick
    rw [recordPath_position, hps]
    exact ⟨hy, hx⟩

/-- Folding boat ticks preserves the crossing invariant. -/
theorem boat_fold_inv (trig : Trig) (cfg : SimulationConfig)
    (hvx : cfg.boatSpeed * trig.cosDeg cfg.boatHeading + cfg.riverVelocity = 3)
    (hvy : cfg.boatSpeed * trig.sinDeg cfg.boatHeading = 4)
    (hw : cfg.riverWidth = 50) (dts : List ℚ) :
    ∀ s : SimulationState,
      s.position.y ≤ 50 ∧ s.position.x = 3 * s.position.y / 4 →
      ((dts.foldl (fun u dd => animateTick trig AppMode.Boat cfg dd u)
          s).position.y ≤ 50 ∧
       (dts.foldl (fun u dd => animateTick trig AppMode.Boat cfg dd u)
          s).position.x =
        3 * (dts.foldl (fun u dd => animateTick trig AppMode.Boat cfg dd u)
          s).position.y / 4) := by
  induction dts with
  | nil => intro s h; exact h
  | cons d ds ih =>
      intro s h
      rw [List.foldl_cons]
      exact ih _ (boat_step_inv trig cfg d s hvx hvy hw h)

/-- After `k ≤ 124` uniform ticks of 0.1 s in Scenario B the boat is still
crossing, with `t = k/10` and position `(0.3·k, 0.4·k)`. -/
theorem boat_uniform (trig : Trig) (hcos : trig.cosDeg 90 = 0)
    (hsin : trig.sinDeg 90 = 1) (k : ℕ) (hk : k ≤ 124) :
    (runTicks trig AppMode.Boat cfgB
        (List.replicate k ((1 : ℚ) / 10))).t = k / 10 ∧
    (runTicks trig AppMode.Boat cfgB
        (List.replicate k ((1 : ℚ) / 10))).position.x = 3 * k / 10 ∧
    (runTicks trig AppMode.Boat cfgB
        (List.replicate k ((1 : ℚ) / 10))).position.y = 2 * k / 5 := by
  have hvx : cfgB.boatSpeed * trig.cosDeg cfgB.boatHeading +
      cfgB.riverVelocity = 3 := by
    show (4 : ℚ) * trig.cosDeg 90 + 3 = 3
    rw [hcos]; ring
  have hvy : cfgB.boatSpeed * trig.sinDeg cfgB.boatHeading = 4 := by
    show (4 : ℚ) * trig.sinDeg 90 = 4
    rw [hsin]; ring
  have hw : cfgB.riverWidth = 50 := rfl
  have H : ∀ k : ℕ, k ≤ 124 →
      (runTicks trig AppMode.Boat cfgB
          (List.replicate k ((1 : ℚ) / 10))).t = k / 10 ∧
      (runTicks trig AppMode.Boat cfgB
          (List.replicate k ((1 : ℚ) / 10))).position.x = 3 * k / 10 ∧
      (runTicks trig AppMode.Boat cfgB
          (List.replicate k ((1 : ℚ) / 10))).position.y = 2 * k / 5 := by
    intro k
    induction k with
    | zero =>
        intro _
        have h1 : (runTicks trig AppMode.Boat cfgB
            (List.replicate 0 ((1 : ℚ) / 10))).t = 0 := rfl
        have h2 : (runTicks trig AppMode.Boat cfgB
            (List.replicate 0 ((1 : ℚ) / 10))).position.x = 0 := rfl
        have h3 : (runTicks trig AppMode.Boat cfgB
            (List.replicate 0 ((1 : ℚ) / 10))).position.y = 0 := rfl
        refine ⟨?_, ?_, ?_⟩
        · rw [h1]; norm_num
        · rw [h2]; norm_num
        · rw [h3]; norm_num
    | succ n ih =>
        intro hk1
        have hn123 : n ≤ 123 := by omega
        obtain ⟨ht, hx, hy⟩ := ih (by omega)
        have hnq : (n : ℚ) ≤ 123 := by exact_mod_cast hn123
        have hfold : runTicks trig AppMode.Boat cfgB
            (List.replicate (n + 1) ((1 : ℚ) / 10)) =
            animateTick trig AppMode.Boat cfgB ((1 : ℚ) / 10)
              (runTicks trig AppMode.Boat cfgB
                (List.replicate n ((1 : ℚ) / 10))) := by
          unfold runTicks
          rw [List.replicate_succ' n ((1 : ℚ) / 10), List.foldl_append]
          rfl
        obtain ⟨ht', hx', hy'⟩ := boat_tick_normal trig cfgB ((1 : ℚ) / 10)
          (runTicks trig AppMode.Boat cfgB (List.replicate n ((1 : ℚ) / 10)))
          hvx hvy hw (by rw [hy]; linarith) (by rw [hy]; linarith)
        rw [hfold]
        refine ⟨?_, ?_, ?_⟩
        · rw [ht', ht]; push_cast; ring
        · rw [hx', hx]; push_cast; ring
        · rw [hy', hy]; push_cast; ring
  exact H k hk

/-- After exactly 125 uniform ticks of 0.1 s in Scenario B the boat lands
at `x = 37.5`, `y = 50`, with `t = 12.5`. -/
theorem boat_uniform_full (trig : Trig) (hcos : trig.cosDeg 90 = 0)
    (hsin : trig.sinDeg 90 = 1) :
    (runTicks trig AppMode.Boat cfgB
        (List.replicate 125 ((1 : ℚ) / 10))).t = 25 / 2 ∧
    (runTicks trig AppMode.Boat cfgB
        (List.replicate 125 ((1 : ℚ) / 10))).position.x = 75 / 2 ∧
    (runTicks trig AppMode.Boat cfgB
        (List.replicate 125 ((1 : ℚ) / 10))).position.y = 50 := by
  have hvx : cfgB.boatSpeed * trig.cosDeg cfgB.boatHeading +
      cfgB.riverVelocity = 3 := by
    show (4 : ℚ) * trig.cosDeg 90 + 3 = 3
    rw [hcos]; ring
  have hvy : cfgB.boatSpeed * trig.sinDeg cfgB.boatHeading = 4 := by
    show (4 : ℚ) * trig.sinDeg 90 = 4
    rw [hsin]; ring
  have hw : cfgB.riverWidth = 50 := rfl
  obtain ⟨ht, hx, hy⟩ := boat_uniform trig hcos hsin 124 (le_refl _)
  have hfold : runTicks trig AppMode.Boat cfgB
      (List.replicate 125 ((1 : ℚ) / 10)) =
      animateTick trig AppMode.Boat cfgB ((1 : ℚ) / 10)
        (runTicks trig AppMode.Boat cfgB
          (List.replicate 124 ((1 : ℚ) / 10))) := by
    have hrep : List.replicate 125 ((1 : ℚ) / 10) =
        List.replicate 124 ((1 : ℚ) / 10) ++ [(1 : ℚ) / 10] := by
      rw [show (125 : ℕ) = 124 + 1 from rfl]
      exact List.replicate_succ' 124 ((1 : ℚ) / 10)
    unfold runTicks
    rw [hrep, List.foldl_append]
    simp only [List.foldl_cons, List.foldl_nil]
  obtain ⟨ht', hx', hy'⟩ := boat_tick_cross trig cfgB ((1 : ℚ) / 10)
    (runTicks trig AppMode.Boat cfgB (List.replicate 124 ((1 : ℚ) / 10)))
    hvx hvy hw (by rw [hy]; norm_num) (by rw [hy]; norm_num)
  rw [hfold]
  refine ⟨?_, ?_, ?_⟩
  · rw [ht', ht]; norm_num
  · rw [hx', hx, hy]; norm_num
  · exact hy'

/-- Amended claim C5 (Scenario B, `boatSpeed = 4`, `heading = 90°`,
`riverVelocity = 3`, `riverWidth = 50`): for any sequence of positive steps
each at most 0.1 s, whenever the terminal state is reached the landing
position is exactly `x = 37.5`, and no prefix of the run ever overshoots
the far bank; the crossing time `t = 12.5` is obtained for the uniform
partition into 125 ticks of 0.1 s (for other partitions `t` is the sum of
all applied steps including the full crossing step, which can exceed 12.5 —
see the counterexample). -/
theorem boat_crossing_exact (trig : Trig) (dts : List ℚ)
    (hcos : trig.cosDeg 90 = 0) (hsin : trig.sinDeg 90 = 1)
    (hsteps : ∀ d ∈ dts, 0 < d ∧ d ≤ 1 / 10)
    (hterm : (runTicks trig AppMode.Boat cfgB dts).position.y = 50) :
    (runTicks trig AppMode.Boat cfgB dts).position.x = 75 / 2 ∧
    (∀ n : ℕ,
      (runTicks trig AppMode.Boat cfgB (dts.take n)).position.y ≤ 50) ∧
    (runTicks trig AppMode.Boat cfgB
        (List.replicate 125 ((1 : ℚ) / 10))).t = 25 / 2 ∧
    (runTicks trig AppMode.Boat cfgB
        (List.replicate 125 ((1 : ℚ) / 10))).position.x = 75 / 2 ∧
    (runTicks trig AppMode.Boat cfgB
        (List.replicate 125 ((1 : ℚ) / 10))).position.y = 50 := by
  have hvx : cfgB.boatSpeed * trig.cosDeg cfgB.boatHeading +
      cfgB.riverVelocity = 3 := by
    show (4 : ℚ) * trig.cosDeg 90 + 3 = 3
    rw [hcos]; ring
  have hvy : cfgB.boatSpeed * trig.sinDeg cfgB.boatHeading = 4 := by
    show (4 : ℚ) * trig.sinDeg 90 = 4
    rw [hsin]; ring
  have hw : cfgB.riverWidth = 50 := rfl
  have hinit : (resetSimulation trig AppMode.Boat cfgB).position.y ≤ 50 ∧
      (resetSimulation trig AppMode.Boat cfgB).position.x =
        3 * (resetSimulation trig AppMode.Boat cfgB).position.y / 4 := by
    constructor
    · show (0 : ℚ) ≤ 50; norm_num
    · show (0 : ℚ) = 3 * 0 / 4; norm_num
  have hu := boat_uniform_full trig hcos hsin
  refine ⟨?_, ?_, hu.1, hu.2.1, hu.2.2⟩
  · have hfin := boat_fold_inv trig cfgB hvx hvy hw dts
      (resetSimulation trig AppMode.Boat cfgB) hinit
    have hx := hfin.2
    unfold runTicks at hterm ⊢
    rw [hterm] at hx
    rw [hx]
    norm_num
  · intro n
    have hfin := boat_fold_inv trig cfgB hvx hvy hw (dts.take n)
      (resetSimulation trig AppMode.Boat cfgB) hinit
    unfold runTicks
    exact hfin.1

/-- Witness for the amended C5: the uniform partition into 125 ticks of
0.1 s satisfies the step bounds, reaches the far bank, and lands at
`x = 37.5` with `t = 12.5`. -/
theorem boat_crossing_exact_witness :
    (∀ d ∈ List.replicate 125 ((1 : ℚ) / 10), 0 < d ∧ d ≤ 1 / 10) ∧
    (runTicks trigAt90 AppMode.Boat cfgB
        (List.replicate 125 ((1 : ℚ) / 10))).position.y = 50 ∧
    (runTicks trigAt90 AppMode.Boat cfgB
        (List.replicate 125 ((1 : ℚ) / 10))).position.x = 75 / 2 ∧
    (runTicks trigAt90 AppMode.Boat cfgB
        (List.replicate 125 ((1 : ℚ) / 10))).t = 25 / 2 := by
  have hst : ∀ d ∈ List.replicate 125 ((1 : ℚ) / 10), 0 < d ∧ d ≤ 1 / 10 := by
    intro d hd
    rw [List.eq_of_mem_replicate hd]
    norm_num
  have hy : (runTicks trigAt90 AppMode.Boat cfgB
      (List.replicate 125 ((1 : ℚ) / 10))).position.y = 50 :=
    (boat_uniform_full trigAt90 rfl rfl).2.2
  have h := boat_crossing_exact trigAt90 (List.replicate 125 ((1 : ℚ) / 10))
    rfl rfl hst hy
  exact ⟨hst, hy, h.1, h.2.2.1⟩

/-- Counterexample to C5 as stated: the partition of 124 ticks of 0.1 s,
one tick of 0.09 s and one tick of 0.1 s consists of positive steps each at
most 0.1 s and reaches the terminal state exactly at its last tick (the
boat is still short of the bank after the first 125 ticks), yet the final
`t` is 12.59 s, not 12.5 s — the landing `x` is still exactly 37.5. -/
theorem boat_crossing_counterexample :
    (∀ d ∈ List.replicate 124 ((1 : ℚ) / 10) ++ [9 / 100, 1 / 10],
      0 < d ∧ d ≤ 1 / 10) ∧
    (runTicks trigAt90 AppMode.Boat cfgB
        (List.replicate 124 ((1 : ℚ) / 10) ++ [9 / 100])).position.y < 50 ∧
    (runTicks trigAt90 AppMode.Boat cfgB
        (List.replicate 124 ((1 : ℚ) / 10) ++
          [9 / 100, 1 / 10])).position.y = 50 ∧
    (runTicks trigAt90 AppMode.Boat cfgB
        (List.replicate 124 ((1 : ℚ) / 10) ++
          [9 / 100, 1 / 10])).position.x = 75 / 2 ∧
    (runTicks trigAt90 AppMode.Boat cfgB
        (List.replicate 124 ((1 : ℚ) / 10) ++
          [9 / 100, 1 / 10])).t = 1259 / 100 ∧
    ((1259 : ℚ) / 100 ≠ 25 / 2) := by
  have hvx : cfgB.boatSpeed * trigAt90.cosDeg cfgB.boatHeading +
      cfgB.riverVelocity = 3 := by
    show (4 : ℚ) * 0 + 3 = 3
    norm_num
  have hvy : cfgB.boatSpeed * trigAt90.sinDeg cfgB.boatHeading = 4 := by
    show (4 : ℚ) * 1 = 4
    norm_num
  have hw : cfgB.riverWidth = 50 := rfl
  obtain ⟨ht, hx, hy⟩ := boat_uniform trigAt90 rfl rfl 124 (le_refl _)
  have hfold1 : runTicks trigAt90 AppMode.Boat cfgB
      (List.replicate 124 ((1 : ℚ) / 10) ++ [9 / 100]) =
      animateTick trigAt90 AppMode.Boat cfgB (9 / 100)
        (runTicks trigAt90 AppMode.Boat cfgB
          (List.replicate 124 ((1 : ℚ) / 10))) := by
    unfold runTicks
    rw [List.foldl_append]
    simp only [List.foldl_cons, List.foldl_nil]
  have hfold2 : runTicks trigAt90 AppMode.Boat cfgB
      (List.replicate 124 ((1 : ℚ) / 10) ++ [9 / 100, 1 / 10]) =
      animateTick trigAt90 AppMode.Boat cfgB (1 / 10)
        (animateTick trigAt90 AppMode.Boat cfgB (9 / 100)
          (runTicks trigAt90 AppMode.Boat cfgB
            (List.replicate 124 ((1 : ℚ) / 10)))) := by
    unfold runTicks
    rw [List.foldl_append]
    simp only [List.foldl_cons, List.foldl_nil]
  obtain ⟨ht1, hx1, hy1⟩ := boat_tick_normal trigAt90 cfgB (9 / 100)
    (runTicks trigAt90 AppMode.Boat cfgB (List.replicate 124 ((1 : ℚ) / 10)))
    hvx hvy hw (by rw [hy]; norm_num) (by rw [hy]; norm_num)
  obtain ⟨ht2, hx2, hy2⟩ := boat_tick_cross trigAt90 cfgB (1 / 10)
    (animateTick trigAt90 AppMode.Boat cfgB (9 / 100)
      (runTicks trigAt90 AppMode.Boat cfgB
        (List.replicate 124 ((1 : ℚ) / 10))))
    hvx hvy hw (by rw [hy1, hy]; norm_num) (by rw [hy1, hy]; norm_num)
  refine ⟨?_, ?_, ?_, ?_, ?_, by norm_num⟩
  · intro d hd
    rcases List.mem_append.mp hd with h | h
    · rw [List.eq_of_mem_replicate h]
      norm_num
    · simp only [List.mem_cons, List.not_mem_nil, or_false] at h
      rcases h with h | h <;> rw [h] <;> norm_num
  · rw [hfold1, hy1, hy]
    norm_num
  · rw [hfold2, hy2]
  · rw [hfold2, hx2, hx1, hy1, hx, hy]
    norm_num
  · rw [hfold2, ht2, ht1, ht]
    norm_num
